import Mathlib

/-!
# Verification of the content-addressable object store

A shallow embedding of `objectstore/internal/storage/object.go` and the
HTTP handlers of `cmd/server/main.go`, together with proofs of the spec's
testable properties.

Bytes are modelled as `Nat` values below 256, machine words as `Nat`
reduced modulo `2^32` where Go's `uint32` arithmetic wraps.  The SHA-256
digest computed by `crypto/sha256` (via `sha256.New` / `io.Copy` /
`h.Sum(nil)`) is embedded as an executable Lean function and checked
against the published digest of "Hello World" that the repository's
README also records.
-/

/-- Reduce modulo `2^32`: Go `uint32` arithmetic. -/
def w32 (n : Nat) : Nat := n % 4294967296

/-- 32-bit right rotation (inputs are already below `2^32`). -/
def rotr (n x : Nat) : Nat := ((x >>> n) ||| (x <<< (32 - n))) % 4294967296

/-- SHA-256 `Ch` function. -/
def sha256ch (x y z : Nat) : Nat := (x &&& y) ^^^ ((x ^^^ 4294967295) &&& z)

/-- SHA-256 `Maj` function. -/
def sha256maj (x y z : Nat) : Nat := (x &&& y) ^^^ (x &&& z) ^^^ (y &&& z)

/-- SHA-256 big sigma-0. -/
def bsig0 (x : Nat) : Nat := rotr 2 x ^^^ rotr 13 x ^^^ rotr 22 x

/-- SHA-256 big sigma-1. -/
def bsig1 (x : Nat) : Nat := rotr 6 x ^^^ rotr 11 x ^^^ rotr 25 x

/-- SHA-256 small sigma-0. -/
def ssig0 (x : Nat) : Nat := rotr 7 x ^^^ rotr 18 x ^^^ (x >>> 3)

/-- SHA-256 small sigma-1. -/
def ssig1 (x : Nat) : Nat := rotr 17 x ^^^ rotr 19 x ^^^ (x >>> 10)

/-- The 64 SHA-256 round constants (FIPS 180-4 section 4.2.2, here in
decimal). -/
def sha256K : List Nat :=
  [1116352408,
   1899447441,
   3049323471,
   3921009573,
   961987163,
   1508970993,
   2453635748,
   2870763221,
   3624381080,
   310598401,
   607225278,
   1426881987,
   1925078388,
   2162078206,
   2614888103,
   3248222580,
   3835390401,
   4022224774,
   264347078,
   604807628,
   770255983,
   1249150122,
   1555081692,
   1996064986,
   2554220882,
   2821834349,
   2952996808,
   3210313671,
   3336571891,
   3584528711,
   113926993,
   338241895,
   666307205,
   773529912,
   1294757372,
   1396182291,
   1695183700,
   1986661051,
   2177026350,
   2456956037,
   2730485921,
   2820302411,
   3259730800,
   3345764771,
   3516065817,
   3600352804,
   4094571909,
   275423344,
   430227734,
   506948616,
   659060556,
   883997877,
   958139571,
   1322822218,
   1537002063,
   1747873779,
   1955562222,
   2024104815,
   2227730452,
   2361852424,
   2428436474,
   2756734187,
   3204031479,
   3329325298]

/-- The SHA-256 initial hash state (FIPS 180-4 section 5.3.3, in
decimal). -/
def sha256H0 : List Nat :=
  [1779033703,
   3144134277,
   1013904242,
   2773480762,
   1359893119,
   2600822924,
   528734635,
   1541459225]

/-- SHA-256 padding: append `0x80`, zeros to 56 mod 64, then the bit
length as 8 big-endian bytes. -/
def padBytes (msg : List Nat) : List Nat :=
  let L := msg.length
  let k := (119 - L % 64) % 64
  let bitLen := L * 8
  msg ++ 128 :: List.replicate k 0 ++
    [(bitLen >>> 56) % 256, (bitLen >>> 48) % 256, (bitLen >>> 40) % 256,
     (bitLen >>> 32) % 256, (bitLen >>> 24) % 256, (bitLen >>> 16) % 256,
     (bitLen >>> 8) % 256, bitLen % 256]

/-- Group bytes into big-endian 32-bit words. -/
def toWords : List Nat → List Nat
  | b0 :: b1 :: b2 :: b3 :: rest =>
      (b0 * 16777216 + b1 * 65536 + b2 * 256 + b3) :: toWords rest
  | _ => []

/-- Append the next message-schedule word `W[t]` from the last 16. -/
def scheduleStep (ws : List Nat) : List Nat :=
  let n := ws.length
  ws ++ [w32 (ssig1 (ws.getD (n - 2) 0) + ws.getD (n - 7) 0 +
              ssig0 (ws.getD (n - 15) 0) + ws.getD (n - 16) 0)]

/-- Extend a 16-word schedule by `n` more words. -/
def extendSchedule : Nat → List Nat → List Nat
  | 0, ws => ws
  | n + 1, ws => extendSchedule n (scheduleStep ws)

/-- One SHA-256 compression round on the working state `[a,...,h]` fed one
`(K[t], W[t])` pair. -/
def sha256round (st : List Nat) (kw : Nat × Nat) : List Nat :=
  match st with
  | [a, b, c, d, e, f, g, hh] =>
    let t1 := w32 (hh + bsig1 e + sha256ch e f g + kw.1 + kw.2)
    let t2 := w32 (bsig0 a + sha256maj a b c)
    [w32 (t1 + t2), a, b, c, w32 (d + t1), e, f, g]
  | other => other

/-- Process one 64-byte block: run 64 rounds and add the result into the
chaining state. -/
def processBlock (H : List Nat) (block : List Nat) : List Nat :=
  let ws := extendSchedule 48 (toWords block)
  let fin := (sha256K.zip ws).foldl sha256round H
  List.zipWith (fun x y => w32 (x + y)) H fin

/-- Split a byte list into 64-byte blocks (fuel-driven so that it reduces
by structural recursion; the fuel `l.length` always suffices). -/
def chunksAux : Nat → List Nat → List (List Nat)
  | 0, _ => []
  | fuel + 1, l => if l = [] then [] else l.take 64 :: chunksAux fuel (l.drop 64)

/-- Split a byte list into 64-byte blocks. -/
def chunks64 (l : List Nat) : List (List Nat) := chunksAux l.length l

/-- The SHA-256 state words of a byte message. -/
def sha256words (msg : List Nat) : List Nat :=
  (chunks64 (padBytes msg)).foldl processBlock sha256H0

/-- A 32-bit word as 4 big-endian bytes. -/
def bytesOfWord (w : Nat) : List Nat :=
  [(w >>> 24) % 256, (w >>> 16) % 256, (w >>> 8) % 256, w % 256]

/-- SHA-256 digest of a byte message, as its 32 digest bytes
(`h.Sum(nil)` in the Go source). -/
def sha256bytes (msg : List Nat) : List Nat :=
  ((sha256words msg).map bytesOfWord).flatten

/-- One lowercase hexadecimal digit (the digits Go's `%x` verb emits). -/
def hexChar (n : Nat) : Char :=
  if n < 10 then Char.ofNat (48 + n) else Char.ofNat (87 + n)

/-- Lowercase hex rendering of a byte list: two digits per byte, exactly
`fmt.Sprintf("%x", bytes)` on a Go `[]byte`. -/
def hexOfBytes (bs : List Nat) : String :=
  String.mk (bs.map (fun b => [hexChar (b / 16), hexChar (b % 16)])).flatten

/-- The digest string `fmt.Sprintf("%x", h.Sum(nil))` computed by
`PutObject`. -/
def sha256hex (msg : List Nat) : String := hexOfBytes (sha256bytes msg)

/-- The bytes of an ASCII string payload. -/
def asciiBytes (s : String) : List Nat := s.data.map Char.toNat

/-- SHA-256 test vector: the digest of "Hello World", matching the value
the repository's README reports as the ETag of that upload. -/
theorem sha256hex_helloWorld :
    sha256hex (asciiBytes "Hello World") =
      "a591a6d40bf420404a011733cfb7b190d62c65bf0bcda32b57b277d9ad9f146e" := by
  decide

/-!
## The store state and its operations

`object.go` keeps three kinds of state: the staging directory `tmp/`, the
content tree `objects/…`, and the SQLite table
`objects(bucket,key,hash,size)` with `PRIMARY KEY(bucket,key)`.  Each
directory is modelled as an association list from path to file bytes in
which writing a path replaces any previous entry (POSIX `rename` and file
creation overwrite).  `uuid.New()` is modelled by a per-store counter
producing a fresh, collision-free staging name, which is all `PutObject`
relies on.  Filesystem and index faults that Go surfaces as non-nil
`error` values are injected through a `PutEnv` of failure flags, and a
request body that dies mid-stream is a `GoReader.failAfter`.
-/

/-- A row of the `objects` table (`ObjectMeta` in the Go source). -/
structure ObjectMeta where
  bucket : String
  key : String
  hash : String
  size : Nat
deriving Repr, DecidableEq

/-- Errors the storage layer returns: `ErrNotFound`, a filesystem error,
or a database error. -/
inductive StoreErr where
  | notFound
  | ioErr
  | dbErr
deriving Repr, DecidableEq

/-- A directory: paths mapped to file contents. -/
abbrev Dir := List (String × List Nat)

/-- `os.Open` / reading a path: the first entry with that name. -/
def fsLookup (fs : Dir) (p : String) : Option (List Nat) :=
  (fs.find? (fun e => e.1 == p)).map (fun e => e.2)

/-- Creating or renaming onto a path replaces whatever was there. -/
def fsWrite (fs : Dir) (p : String) (v : List Nat) : Dir :=
  (p, v) :: fs.filter (fun e => !(e.1 == p))

/-- `os.Remove`: drop the entry at a path. -/
def fsRemove (fs : Dir) (p : String) : Dir :=
  fs.filter (fun e => !(e.1 == p))

/-- The whole persistent state: staging dir, content tree, metadata
table, and the fresh-name counter standing in for `uuid.New()`. -/
structure Store where
  tmp : Dir
  objects : Dir
  table : List ObjectMeta
  uuidCtr : Nat
deriving Repr, DecidableEq

/-- A store with nothing in it (fresh data directory and empty table). -/
def emptyStore : Store := { tmp := [], objects := [], table := [], uuidCtr := 0 }

/-- The unique staging file name `filepath.Join(TmpDir, uuid.New().String())`. -/
def uuidString (n : Nat) : String := "./data/tmp/" ++ toString n

/-- The content-addressed path
`filepath.Join(ObjDir, hash[:2], hash[2:4], hash)`. -/
def blobPath (hash : String) : String :=
  "./data/objects/" ++ hash.take 2 ++ "/" ++ ((hash.drop 2).take 2) ++ "/" ++ hash

/-- Which fallible steps of `PutObject` fail in this run: `os.Create`,
`f.Close()`, `os.MkdirAll`, `os.Rename`, `DB.Exec`. -/
structure PutEnv where
  createFails : Bool
  closeFails : Bool
  mkdirFails : Bool
  renameFails : Bool
  dbFails : Bool
deriving Repr, DecidableEq

/-- A run in which every step succeeds. -/
def noFail : PutEnv :=
  { createFails := false, closeFails := false, mkdirFails := false,
    renameFails := false, dbFails := false }

/-- The request body handed to `io.Copy`: either it yields all its bytes
and ends cleanly, or it yields a prefix and then fails with an I/O
error. -/
inductive GoReader where
  | ok (bs : List Nat)
  | failAfter (bs : List Nat)
deriving Repr, DecidableEq

/-- `SELECT … FROM objects WHERE bucket=? AND key=?`: the matching row. -/
def lookupRow (table : List ObjectMeta) (bucket key : String) : Option ObjectMeta :=
  table.find? (fun r => r.bucket == bucket && r.key == key)

/-- `INSERT OR REPLACE INTO objects(bucket,key,hash,size)`: with
`PRIMARY KEY(bucket,key)` this atomically replaces the row for the pair. -/
def upsert (table : List ObjectMeta) (bucket key hash : String) (size : Nat) :
    List ObjectMeta :=
  { bucket := bucket, key := key, hash := hash, size := size } ::
    table.filter (fun r => !(r.bucket == bucket && r.key == key))

/-- `storage.PutObject`: create a staging file under a fresh name, stream
the body into it while hashing, close, build the shard directory, rename
into the content-addressed path, then upsert the metadata row.  Every
failure path removes the staging file and stops before the next step. -/
def PutObject (env : PutEnv) (st : Store) (bucket key : String) (r : GoReader) :
    Except StoreErr String × Store :=
  let tmpName := uuidString st.uuidCtr
  let st1 : Store := { st with uuidCtr := st.uuidCtr + 1 }
  if env.createFails then (Except.error StoreErr.ioErr, st1)
  else
    let st2 : Store := { st1 with tmp := fsWrite st1.tmp tmpName [] }
    match r with
    | GoReader.failAfter bs =>
        let st3 : Store := { st2 with tmp := fsWrite st2.tmp tmpName bs }
        (Except.error StoreErr.ioErr, { st3 with tmp := fsRemove st3.tmp tmpName })
    | GoReader.ok bs =>
        let st3 : Store := { st2 with tmp := fsWrite st2.tmp tmpName bs }
        if env.closeFails then
          (Except.error StoreErr.ioErr, { st3 with tmp := fsRemove st3.tmp tmpName })
        else
          let hash := sha256hex bs
          if env.mkdirFails then
            (Except.error StoreErr.ioErr, { st3 with tmp := fsRemove st3.tmp tmpName })
          else if env.renameFails then
            (Except.error StoreErr.ioErr, { st3 with tmp := fsRemove st3.tmp tmpName })
          else
            let st4 : Store :=
              { st3 with objects := fsWrite st3.objects (blobPath hash) bs,
                         tmp := fsRemove st3.tmp tmpName }
            if env.dbFails then (Except.error StoreErr.dbErr, st4)
            else (Except.ok hash, { st4 with table := upsert st4.table bucket key hash bs.length })

/-- `storage.GetObject`: resolve the row, then open the blob at its
addressed path.  Both a missing row and a failed open are surfaced as the
same `ErrNotFound`. -/
def GetObject (st : Store) (bucket key : String) : Except StoreErr (List Nat) :=
  match lookupRow st.table bucket key with
  | none => Except.error StoreErr.notFound
  | some row =>
    match fsLookup st.objects (blobPath row.hash) with
    | none => Except.error StoreErr.notFound
    | some bs => Except.ok bs

/-- `storage.DeleteObject`: `DELETE FROM objects WHERE bucket=? AND key=?`,
then `ErrNotFound` when no row was affected.  The blob file is untouched. -/
def DeleteObject (st : Store) (bucket key : String) : Except StoreErr Unit × Store :=
  let affected :=
    (st.table.filter (fun r => r.bucket == bucket && r.key == key)).length
  let st' : Store :=
    { st with table := st.table.filter (fun r => !(r.bucket == bucket && r.key == key)) }
  if affected = 0 then (Except.error StoreErr.notFound, st')
  else (Except.ok (), st')

/-- `storage.HeadObject`: a pure metadata lookup, no file access. -/
def HeadObject (st : Store) (bucket key : String) : Except StoreErr ObjectMeta :=
  match lookupRow st.table bucket key with
  | none => Except.error StoreErr.notFound
  | some row =>
    Except.ok { bucket := bucket, key := key, hash := row.hash, size := row.size }

/-- Lexicographic order on character lists by code point. -/
def ltChars : List Char -> List Char -> Bool
  | [], [] => false
  | [], _ :: _ => true
  | _ :: _, [] => false
  | c :: cs, d :: ds =>
    if c.toNat < d.toNat then true
    else if d.toNat < c.toNat then false
    else ltChars cs ds

/-- String comparison by code point: on UTF-8 text this is exactly
SQLite's default BINARY collation (byte-wise `memcmp`). -/
def strLt (s t : String) : Bool := ltChars s.data t.data

/-- The comparison behind `ORDER BY bucket, key` ascending. -/
def metaLe (x y : ObjectMeta) : Bool :=
  if x.bucket = y.bucket then !(strLt y.key x.key) else strLt x.bucket y.bucket

/-- Insert a row into a list sorted by `metaLe`. -/
def insertMeta (x : ObjectMeta) : List ObjectMeta → List ObjectMeta
  | [] => [x]
  | y :: ys => if metaLe x y then x :: y :: ys else y :: insertMeta x ys

/-- Sort rows by `(bucket, key)` ascending, as `ORDER BY bucket, key`. -/
def sortObjs (l : List ObjectMeta) : List ObjectMeta := l.foldr insertMeta []

/-- `storage.ListObjects`: all rows ordered by `(bucket, key)`, with the
`WHERE bucket=?` clause added only when the argument is non-empty. -/
def ListObjects (st : Store) (bucket : String) : List ObjectMeta :=
  if bucket ≠ "" then
    sortObjs (st.table.filter (fun r => r.bucket == bucket))
  else
    sortObjs st.table

/-- Go's `string(i)` on an integer: the UTF-8 string of the code point
`i`, or the replacement character for an invalid code point — never the
decimal numeral. -/
def goStringOfInt (n : Nat) : String :=
  if n.isValidChar then String.mk [Char.ofNat n] else String.mk [Char.ofNat 65533]

/-- An HTTP HEAD response as the handler builds it: status plus the two
headers it sets. -/
structure HeadResp where
  status : Nat
  contentLength : Option String
  etag : Option String
deriving Repr, DecidableEq

/-- The `headObject` handler of `cmd/server/main.go`: 404 on any error,
otherwise 200 with `Content-Length` set to `string(meta.Size)` and `ETag`
set to the digest. -/
def headObjectHandler (st : Store) (bucket key : String) : HeadResp :=
  match HeadObject st bucket key with
  | Except.error _ => { status := 404, contentLength := none, etag := none }
  | Except.ok meta =>
      { status := 200, contentLength := some (goStringOfInt meta.size),
        etag := some meta.hash }

/-- One client-visible operation of the service. -/
inductive Op where
  | put (env : PutEnv) (bucket key : String) (r : GoReader)
  | get (bucket key : String)
  | head (bucket key : String)
  | del (bucket key : String)
  | list (bucket : String)

/-- State transition of one operation; `Get`, `Head` and `List` read the
store without changing it. -/
def applyOp (st : Store) : Op → Store
  | Op.put env bucket key r => (PutObject env st bucket key r).2
  | Op.get _ _ => st
  | Op.head _ _ => st
  | Op.del bucket key => (DeleteObject st bucket key).2
  | Op.list _ => st

/-- Run a sequence of operations from a starting state. -/
def applyOps (st : Store) (ops : List Op) : Store := ops.foldl applyOp st

/-- Every metadata row's digest resolves to a blob file that exists in
the content tree (decidably, so concrete states can be checked). -/
def metaBlobInvB (st : Store) : Bool :=
  st.table.all (fun r => (fsLookup st.objects (blobPath r.hash)).isSome)

/-- Did `PutObject` fail before the blob commit (staging write, stream,
close, directory creation, or rename)? -/
def commitFails (env : PutEnv) (r : GoReader) : Bool :=
  env.createFails || env.closeFails || env.mkdirFails || env.renameFails ||
    (match r with | GoReader.ok _ => false | GoReader.failAfter _ => true)

/-!
## Basic lemmas about the directory maps and the metadata table
-/

/-- Nothing that a predicate rejected survives a filter by it. -/
theorem filter_not_filter {α : Type} (p : α → Bool) (l : List α) :
    (l.filter (fun a => !(p a))).filter p = [] := by
  induction l with
  | nil => rfl
  | cons x xs ih =>
    by_cases hx : p x = true
    · simp [List.filter, hx, ih]
    · simp only [Bool.not_eq_true] at hx
      simp [List.filter, hx, ih]

/-- Searching the filtered list finds nothing the predicate rejected. -/
theorem find_filter_not {α : Type} (p : α → Bool) (l : List α) :
    (l.filter (fun a => !(p a))).find? p = none := by
  rw [List.find?_eq_none]
  intro x hx
  rcases List.mem_filter.mp hx with ⟨_, hpx⟩
  simp only [Bool.not_eq_true'] at hpx
  simp [hpx]

/-- Reading the path just written returns the bytes just written. -/
theorem fsLookup_fsWrite_self (fs : Dir) (p : String) (v : List Nat) :
    fsLookup (fsWrite fs p v) p = some v := by
  simp [fsLookup, fsWrite, List.find?]

/-- Filtering out entries at `p` does not disturb a search for `q ≠ p`. -/
theorem find_erase_ne (fs : Dir) (p q : String) (h : q ≠ p) :
    (fs.filter (fun e => !(e.1 == p))).find? (fun e => e.1 == q) =
      fs.find? (fun e => e.1 == q) := by
  induction fs with
  | nil => rfl
  | cons e tl ih =>
    by_cases he : e.1 = p
    · have hpq : ¬ (p = q) := fun hc => h hc.symm
      simp [List.filter_cons, List.find?_cons, he, hpq, ih]
    · by_cases heq : e.1 = q
      · have hqp : ¬ (q = p) := h
        simp [List.filter_cons, List.find?_cons, heq, hqp]
      · simp [List.filter_cons, List.find?_cons, he, heq, ih]

/-- Writing one path leaves reads of every other path unchanged. -/
theorem fsLookup_fsWrite_ne (fs : Dir) (p q : String) (v : List Nat) (h : q ≠ p) :
    fsLookup (fsWrite fs p v) q = fsLookup fs q := by
  have hq : (p == q) = false := by
    simp
    exact fun hc => h hc.symm
  simp [fsLookup, fsWrite, List.find?, hq, find_erase_ne fs p q h]

/-- A path that resolved before a write still resolves after it. -/
theorem fsLookup_fsWrite_isSome (fs : Dir) (p q : String) (v : List Nat)
    (h : (fsLookup fs q).isSome = true) :
    (fsLookup (fsWrite fs p v) q).isSome = true := by
  by_cases hpq : q = p
  · subst hpq; simp [fsLookup_fsWrite_self]
  · rw [fsLookup_fsWrite_ne fs p q v hpq]; exact h

/-- Removing the staging name right after writing it restores the staging
directory to one with no entry at that name. -/
theorem fsRemove_fsWrite (fs : Dir) (p : String) (v : List Nat) :
    fsRemove (fsWrite fs p v) p = fsRemove fs p := by
  simp [fsRemove, fsWrite, List.filter_filter]

/-- A removed path no longer resolves. -/
theorem fsLookup_fsRemove_self (fs : Dir) (p : String) :
    fsLookup (fsRemove fs p) p = none := by
  simp only [fsLookup, fsRemove]
  rw [find_filter_not (fun e => e.1 == p) fs]
  rfl

/-- Removing one path leaves reads of every other path unchanged. -/
theorem fsLookup_fsRemove_ne (fs : Dir) (p q : String) (h : q ≠ p) :
    fsLookup (fsRemove fs p) q = fsLookup fs q := by
  simp [fsLookup, fsRemove, find_erase_ne fs p q h]

/-- The row just upserted is the row the pair resolves to. -/
theorem lookupRow_upsert_self (t : List ObjectMeta) (b k hs : String) (s : Nat) :
    lookupRow (upsert t b k hs s) b k =
      some { bucket := b, key := k, hash := hs, size := s } := by
  simp [lookupRow, upsert, List.find?]

/-- After deleting a pair's rows, the pair resolves to nothing. -/
theorem lookupRow_filter_out (t : List ObjectMeta) (b k : String) :
    lookupRow (t.filter (fun r => !(r.bucket == b && r.key == k))) b k = none := by
  simpa [lookupRow] using
    find_filter_not (fun r : ObjectMeta => r.bucket == b && r.key == k) t

/-- Number of physical files at a path. -/
def countPath (fs : Dir) (p : String) : Nat :=
  (fs.filter (fun e => e.1 == p)).length

/-- After a write there is exactly one file at the written path. -/
theorem countPath_fsWrite_self (fs : Dir) (p : String) (v : List Nat) :
    countPath (fsWrite fs p v) p = 1 := by
  simp only [countPath, fsWrite, List.filter]
  rw [show ((p, v).1 == p) = true by simp]
  rw [filter_not_filter (fun e : String × List Nat => e.1 == p) fs]
  rfl

/-- Number of live rows for a pair. -/
def countRows (t : List ObjectMeta) (b k : String) : Nat :=
  (t.filter (fun r => r.bucket == b && r.key == k)).length

/-- After an upsert there is exactly one live row for the pair. -/
theorem countRows_upsert_self (t : List ObjectMeta) (b k hs : String) (s : Nat) :
    countRows (upsert t b k hs s) b k = 1 := by
  simp only [countRows, upsert, List.filter]
  rw [show ((({ bucket := b, key := k, hash := hs, size := s } : ObjectMeta).bucket == b)
        && (({ bucket := b, key := k, hash := hs, size := s } : ObjectMeta).key == k)) = true by simp]
  rw [filter_not_filter (fun r : ObjectMeta => r.bucket == b && r.key == k) t]
  rfl

/-!
## Shape of the digest string
-/

/-- One compression round preserves the length of the working state. -/
theorem sha256round_length (st : List Nat) (kw : Nat × Nat) :
    (sha256round st kw).length = st.length := by
  rcases st with _ | ⟨a, _ | ⟨b, _ | ⟨c, _ | ⟨d, _ | ⟨e, _ | ⟨f, _ | ⟨g, _ | ⟨hh, _ | ⟨x, t⟩⟩⟩⟩⟩⟩⟩⟩⟩ <;>
    simp [sha256round]

/-- 64 rounds preserve the length of the working state. -/
theorem foldl_sha256round_length (l : List (Nat × Nat)) :
    ∀ H : List Nat, (l.foldl sha256round H).length = H.length := by
  induction l with
  | nil => intro H; rfl
  | cons x xs ih => intro H; rw [List.foldl_cons, ih, sha256round_length]

/-- Processing a block preserves the length of the chaining state. -/
theorem processBlock_length (H block : List Nat) :
    (processBlock H block).length = H.length := by
  simp [processBlock, foldl_sha256round_length]

/-- Any number of blocks preserves the length of the chaining state. -/
theorem foldl_processBlock_length (bs : List (List Nat)) :
    ∀ H : List Nat, (bs.foldl processBlock H).length = H.length := by
  induction bs with
  | nil => intro H; rfl
  | cons x xs ih => intro H; rw [List.foldl_cons, ih, processBlock_length]

/-- A SHA-256 state always has 8 words. -/
theorem sha256words_length (msg : List Nat) : (sha256words msg).length = 8 := by
  rw [sha256words, foldl_processBlock_length]
  rfl

/-- Serializing the words gives 4 bytes per word. -/
theorem flatten_map_bytesOfWord_length (l : List Nat) :
    ((l.map bytesOfWord).flatten).length = 4 * l.length := by
  induction l with
  | nil => rfl
  | cons x xs ih =>
    simp only [List.map_cons, List.flatten_cons, List.length_append, ih,
      List.length_cons, bytesOfWord]
    simp
    omega

/-- A SHA-256 digest has exactly 32 bytes. -/
theorem sha256bytes_length (msg : List Nat) : (sha256bytes msg).length = 32 := by
  rw [sha256bytes, flatten_map_bytesOfWord_length, sha256words_length]

/-- Every digest byte is below 256. -/
theorem sha256bytes_lt (msg : List Nat) : ∀ b ∈ sha256bytes msg, b < 256 := by
  intro b hb
  simp only [sha256bytes, List.mem_flatten, List.mem_map] at hb
  rcases hb with ⟨l, ⟨w, _, hw⟩, hbl⟩
  subst hw
  simp only [bytesOfWord, List.mem_cons, List.not_mem_nil, or_false] at hbl
  rcases hbl with rfl | rfl | rfl | rfl <;> exact Nat.mod_lt _ (by decide)

/-- A lowercase hexadecimal character: a digit or a letter `a`–`f`. -/
def isLowerHex (c : Char) : Bool :=
  c.isDigit || (decide (Char.ofNat 97 ≤ c) && decide (c ≤ Char.ofNat 102))

/-- `hexChar` of a value below 16 is a lowercase hex character. -/
theorem hexChar_isLowerHex : ∀ n < 16, isLowerHex (hexChar n) = true := by decide

/-- Hex rendering yields two characters per byte. -/
theorem hexOfBytes_length (bs : List Nat) : (hexOfBytes bs).length = 2 * bs.length := by
  simp only [hexOfBytes, String.length]
  induction bs with
  | nil => rfl
  | cons x xs ih =>
    simp only [List.map_cons, List.flatten_cons, List.length_append, ih,
      List.length_cons]
    simp
    omega

/-- Hex rendering of genuine bytes uses only lowercase hex characters. -/
theorem hexOfBytes_chars (bs : List Nat) (hb : ∀ b ∈ bs, b < 256) :
    ∀ c ∈ (hexOfBytes bs).data, isLowerHex c = true := by
  intro c hc
  simp only [hexOfBytes, String.mk, List.mem_flatten, List.mem_map] at hc
  rcases hc with ⟨l, ⟨x, hxmem, hx⟩, hcl⟩
  subst hx
  have hx256 := hb x hxmem
  simp only [List.mem_cons, List.not_mem_nil, or_false] at hcl
  rcases hcl with rfl | rfl
  · exact hexChar_isLowerHex _ ((Nat.div_lt_iff_lt_mul (by decide)).mpr (by omega))
  · exact hexChar_isLowerHex _ (Nat.mod_lt _ (by decide))

/-!
## Behaviour of `PutObject`
-/

/-- Success analysis of `PutObject`: an `ok` result forces the clean-run
path of the code (no step failed, the stream ended cleanly), the returned
digest is the SHA-256 hex digest of the streamed bytes, and the resulting
state has the staging file gone, the blob at its content address, and the
row upserted. -/
theorem put_ok_cases (env : PutEnv) (st : Store) (b k : String) (r : GoReader) (d : String)
    (h : (PutObject env st b k r).1 = Except.ok d) :
    ∃ bs, r = GoReader.ok bs ∧ d = sha256hex bs ∧
      (PutObject env st b k r).2 =
        { tmp := fsRemove st.tmp (uuidString st.uuidCtr),
          objects := fsWrite st.objects (blobPath (sha256hex bs)) bs,
          table := upsert st.table b k (sha256hex bs) bs.length,
          uuidCtr := st.uuidCtr + 1 } := by
  obtain ⟨c, cl, mk, rn, db⟩ := env
  cases r with
  | failAfter bs => cases c <;> simp_all [PutObject]
  | ok bs =>
    cases c <;> cases cl <;> cases mk <;> cases rn <;> cases db <;>
      simp_all [PutObject, fsRemove_fsWrite]

/-!
## Claims about the success path of `Put`
-/

/-- **C1.** For every bucket, key, and byte payload `b`, if
`Put(bucket, key, b)` succeeds then a subsequent `Get(bucket, key)`
succeeds and returns a byte stream identical to `b`. -/
theorem put_get_roundtrip (env : PutEnv) (st : Store) (b k : String)
    (bs : List Nat) (d : String)
    (h : (PutObject env st b k (GoReader.ok bs)).1 = Except.ok d) :
    GetObject (PutObject env st b k (GoReader.ok bs)).2 b k = Except.ok bs := by
  rcases put_ok_cases env st b k _ d h with ⟨bs', hr, _, hst⟩
  injection hr with hbs
  subst hbs
  rw [hst]
  simp [GetObject, lookupRow_upsert_self, fsLookup_fsWrite_self]

/-- Witness for C1: the README's own example upload round-trips. -/
theorem put_get_roundtrip_witness :
    (PutObject noFail emptyStore "test" "hello.txt"
        (GoReader.ok (asciiBytes "Hello World"))).1 =
      Except.ok (sha256hex (asciiBytes "Hello World")) ∧
    GetObject (PutObject noFail emptyStore "test" "hello.txt"
        (GoReader.ok (asciiBytes "Hello World"))).2 "test" "hello.txt" =
      Except.ok (asciiBytes "Hello World") :=
  ⟨rfl, put_get_roundtrip noFail emptyStore "test" "hello.txt"
      (asciiBytes "Hello World") (sha256hex (asciiBytes "Hello World")) rfl⟩

/-- **C2.** The digest returned by a successful `Put` equals the SHA-256
hash of exactly the bytes submitted, rendered as a 64-character lowercase
hexadecimal string. -/
theorem put_digest_sha256 (env : PutEnv) (st : Store) (b k : String)
    (bs : List Nat) (d : String)
    (h : (PutObject env st b k (GoReader.ok bs)).1 = Except.ok d) :
    d = sha256hex bs ∧ d.length = 64 ∧ ∀ c ∈ d.data, isLowerHex c = true := by
  rcases put_ok_cases env st b k _ d h with ⟨bs', hr, hd, _⟩
  injection hr with hbs
  subst hbs
  subst hd
  refine ⟨rfl, ?_, ?_⟩
  · rw [sha256hex, hexOfBytes_length, sha256bytes_length]
  · exact hexOfBytes_chars _ (sha256bytes_lt bs)

/-- Witness for C2, at the README's example payload. -/
theorem put_digest_sha256_witness :
    (PutObject noFail emptyStore "test" "hello.txt"
        (GoReader.ok (asciiBytes "Hello World"))).1 =
      Except.ok (sha256hex (asciiBytes "Hello World")) ∧
    (sha256hex (asciiBytes "Hello World") = sha256hex (asciiBytes "Hello World") ∧
     (sha256hex (asciiBytes "Hello World")).length = 64 ∧
     ∀ c ∈ (sha256hex (asciiBytes "Hello World")).data, isLowerHex c = true) :=
  ⟨rfl, put_digest_sha256 noFail emptyStore "test" "hello.txt"
      (asciiBytes "Hello World") (sha256hex (asciiBytes "Hello World")) rfl⟩

/-- **C3.** Two successful `Put`s of byte-identical content under any two
logical names return the same digest, and afterwards exactly one physical
blob file exists at the content-addressed path of that digest, holding
that content. -/
theorem put_dedup (env1 env2 : PutEnv) (st : Store) (bA k1 bB k2 : String)
    (bs : List Nat) (d1 d2 : String)
    (h1 : (PutObject env1 st bA k1 (GoReader.ok bs)).1 = Except.ok d1)
    (h2 : (PutObject env2 (PutObject env1 st bA k1 (GoReader.ok bs)).2 bB k2
            (GoReader.ok bs)).1 = Except.ok d2) :
    d1 = d2 ∧
    countPath (PutObject env2 (PutObject env1 st bA k1 (GoReader.ok bs)).2 bB k2
        (GoReader.ok bs)).2.objects (blobPath d1) = 1 ∧
    fsLookup (PutObject env2 (PutObject env1 st bA k1 (GoReader.ok bs)).2 bB k2
        (GoReader.ok bs)).2.objects (blobPath d1) = some bs := by
  rcases put_ok_cases env1 st bA k1 _ d1 h1 with ⟨bs1, hr1, hd1, _⟩
  injection hr1 with hbs1
  subst hbs1
  rcases put_ok_cases env2 _ bB k2 _ d2 h2 with ⟨bs2, hr2, hd2, hst2⟩
  injection hr2 with hbs2
  subst hbs2
  subst hd1
  subst hd2
  refine ⟨rfl, ?_, ?_⟩
  · rw [hst2]
    exact countPath_fsWrite_self _ _ _
  · rw [hst2]
    exact fsLookup_fsWrite_self _ _ _

/-- Witness for C3: the README's deduplication example, two logical names
for "Hello World". -/
theorem put_dedup_witness :
    (PutObject noFail emptyStore "test" "hello.txt"
        (GoReader.ok (asciiBytes "Hello World"))).1 =
      Except.ok (sha256hex (asciiBytes "Hello World")) ∧
    countPath (PutObject noFail (PutObject noFail emptyStore "test" "hello.txt"
        (GoReader.ok (asciiBytes "Hello World"))).2 "test" "dup.txt"
        (GoReader.ok (asciiBytes "Hello World"))).2.objects
      (blobPath (sha256hex (asciiBytes "Hello World"))) = 1 :=
  ⟨rfl, (put_dedup noFail noFail emptyStore "test" "hello.txt" "test" "dup.txt"
      (asciiBytes "Hello World") (sha256hex (asciiBytes "Hello World"))
      (sha256hex (asciiBytes "Hello World")) rfl rfl).2.1⟩

/-- **C8.** A successful `Put(bucket, key, v2)` after an earlier
`Put(bucket, key, v1)` replaces the existing record (the upsert is the
single `INSERT OR REPLACE` statement), so `Get` returns `v2`, `Head`
returns `v2`'s size and digest, and exactly one live record exists for
the pair. -/
theorem put_overwrite (env1 env2 : PutEnv) (st : Store) (b k : String)
    (bs1 bs2 : List Nat) (d1 d2 : String)
    (h1 : (PutObject env1 st b k (GoReader.ok bs1)).1 = Except.ok d1)
    (h2 : (PutObject env2 (PutObject env1 st b k (GoReader.ok bs1)).2 b k
            (GoReader.ok bs2)).1 = Except.ok d2) :
    GetObject (PutObject env2 (PutObject env1 st b k (GoReader.ok bs1)).2 b k
        (GoReader.ok bs2)).2 b k = Except.ok bs2 ∧
    HeadObject (PutObject env2 (PutObject env1 st b k (GoReader.ok bs1)).2 b k
        (GoReader.ok bs2)).2 b k =
      Except.ok { bucket := b, key := k, hash := sha256hex bs2, size := bs2.length } ∧
    countRows (PutObject env2 (PutObject env1 st b k (GoReader.ok bs1)).2 b k
        (GoReader.ok bs2)).2.table b k = 1 := by
  rcases put_ok_cases env2 _ b k _ d2 h2 with ⟨bs2', hr2, _, hst2⟩
  injection hr2 with hbs2
  subst hbs2
  rw [hst2]
  refine ⟨?_, ?_, ?_⟩
  · simp [GetObject, lookupRow_upsert_self, fsLookup_fsWrite_self]
  · simp [HeadObject, lookupRow_upsert_self]
  · exact countRows_upsert_self _ _ _ _ _

/-- Witness for C8: overwriting "v1" by "v2" under one name. -/
theorem put_overwrite_witness :
    (PutObject noFail emptyStore "b" "k" (GoReader.ok (asciiBytes "v1"))).1 =
      Except.ok (sha256hex (asciiBytes "v1")) ∧
    (PutObject noFail (PutObject noFail emptyStore "b" "k"
        (GoReader.ok (asciiBytes "v1"))).2 "b" "k"
        (GoReader.ok (asciiBytes "v2"))).1 =
      Except.ok (sha256hex (asciiBytes "v2")) ∧
    GetObject (PutObject noFail (PutObject noFail emptyStore "b" "k"
        (GoReader.ok (asciiBytes "v1"))).2 "b" "k"
        (GoReader.ok (asciiBytes "v2"))).2 "b" "k" =
      Except.ok (asciiBytes "v2") :=
  ⟨rfl, rfl, (put_overwrite noFail noFail emptyStore "b" "k"
      (asciiBytes "v1") (asciiBytes "v2") (sha256hex (asciiBytes "v1"))
      (sha256hex (asciiBytes "v2")) rfl rfl).1⟩

/-!
## Claim C4: rows only ever point at blobs that exist
-/

/-- Writing any blob preserves blob-existence for every row. -/
theorem metaBlobInv_write (objects : Dir) (table : List ObjectMeta)
    (p : String) (v : List Nat)
    (h : table.all (fun r => (fsLookup objects (blobPath r.hash)).isSome) = true) :
    table.all (fun r => (fsLookup (fsWrite objects p v) (blobPath r.hash)).isSome) = true := by
  rw [List.all_eq_true] at h ⊢
  intro row hrow
  exact fsLookup_fsWrite_isSome _ _ _ _ (h row hrow)

/-- Upserting the row of a blob that was just committed preserves
blob-existence for every row. -/
theorem metaBlobInv_commit (objects : Dir) (table : List ObjectMeta)
    (b k : String) (bs : List Nat)
    (h : table.all (fun r => (fsLookup objects (blobPath r.hash)).isSome) = true) :
    (upsert table b k (sha256hex bs) bs.length).all
      (fun r => (fsLookup (fsWrite objects (blobPath (sha256hex bs)) bs)
        (blobPath r.hash)).isSome) = true := by
  rw [List.all_eq_true]
  intro row hrow
  simp only [upsert, List.mem_cons] at hrow
  rcases hrow with rfl | hrow'
  · simp [fsLookup_fsWrite_self]
  · have hmem : row ∈ table := (List.mem_filter.mp hrow').1
    exact fsLookup_fsWrite_isSome _ _ _ _ (List.all_eq_true.mp h row hmem)

/-- `PutObject` preserves the row-points-at-existing-blob invariant: the
upsert happens only on the branch where the rename already succeeded. -/
theorem metaBlobInv_put (env : PutEnv) (st : Store) (b k : String) (r : GoReader)
    (h : metaBlobInvB st = true) : metaBlobInvB (PutObject env st b k r).2 = true := by
  obtain ⟨c, cl, mk, rn, db⟩ := env
  cases r with
  | failAfter bs => cases c <;> exact h
  | ok bs =>
    cases c with
    | true => exact h
    | false =>
      cases cl with
      | true => exact h
      | false =>
        cases mk with
        | true => exact h
        | false =>
          cases rn with
          | true => exact h
          | false =>
            cases db with
            | true => exact metaBlobInv_write st.objects st.table (blobPath (sha256hex bs)) bs h
            | false => exact metaBlobInv_commit st.objects st.table b k bs h

/-- Both branches of `DeleteObject` leave the same state: the pair's rows
filtered out of the table, everything else untouched. -/
theorem deleteObject_snd (st : Store) (b k : String) :
    (DeleteObject st b k).2 =
      { st with table := st.table.filter (fun r => !(r.bucket == b && r.key == k)) } := by
  by_cases hc : (st.table.filter (fun r => r.bucket == b && r.key == k)).length = 0 <;>
    simp [DeleteObject, hc]

/-- `DeleteObject` preserves the invariant: it only removes rows. -/
theorem metaBlobInv_delete (st : Store) (b k : String)
    (h : metaBlobInvB st = true) : metaBlobInvB (DeleteObject st b k).2 = true := by
  rw [deleteObject_snd]
  simp only [metaBlobInvB, List.all_eq_true] at h ⊢
  intro row hrow
  exact h row (List.mem_filter.mp hrow).1

/-- Every single operation preserves the invariant. -/
theorem metaBlobInv_applyOp (st : Store) (op : Op)
    (h : metaBlobInvB st = true) : metaBlobInvB (applyOp st op) = true := by
  cases op with
  | put env b k r => exact metaBlobInv_put env st b k r h
  | get b k => exact h
  | head b k => exact h
  | del b k => exact metaBlobInv_delete st b k h
  | list b => exact h

/-- Every operation sequence preserves the invariant. -/
theorem metaBlobInv_applyOps (ops : List Op) : ∀ st : Store,
    metaBlobInvB st = true → metaBlobInvB (applyOps st ops) = true := by
  induction ops with
  | nil => intro st h; exact h
  | cons op rest ih => intro st h; exact ih _ (metaBlobInv_applyOp st op h)

/-- **C4.** In every state reachable by any sequence of Put, Get, Head,
Delete, and List operations from a state satisfying it, every metadata
row's digest refers to a blob file that exists; and whenever the staging
write, the stream, the close, the directory creation, or the rename
fails, `PutObject` leaves both the metadata table and the content tree
untouched — the upsert runs only after the blob commit succeeded. -/
theorem metadata_only_after_commit :
    (∀ (st : Store) (ops : List Op), metaBlobInvB st = true →
        metaBlobInvB (applyOps st ops) = true) ∧
    (∀ (env : PutEnv) (st : Store) (b k : String) (r : GoReader),
        commitFails env r = true →
        (PutObject env st b k r).2.table = st.table ∧
        (PutObject env st b k r).2.objects = st.objects) := by
  constructor
  · intro st ops h
    exact metaBlobInv_applyOps ops st h
  · intro env st b k r hf
    obtain ⟨c, cl, mk, rn, db⟩ := env
    cases r with
    | failAfter bs => cases c <;> exact ⟨rfl, rfl⟩
    | ok bs =>
      cases c <;> cases cl <;> cases mk <;> cases rn <;>
        first
          | exact ⟨rfl, rfl⟩
          | (exfalso; simp [commitFails] at hf)

/-- Witness for C4: a put-then-delete history from the empty store keeps
the invariant, and a put whose rename fails changes neither table nor
content tree. -/
theorem metadata_only_after_commit_witness :
    (metaBlobInvB emptyStore = true ∧
      metaBlobInvB (applyOps emptyStore
        [Op.put noFail "b" "k" (GoReader.ok [1, 2]), Op.del "b" "k"]) = true) ∧
    (commitFails { noFail with renameFails := true } (GoReader.ok [1]) = true ∧
      ((PutObject { noFail with renameFails := true } emptyStore "b" "k"
          (GoReader.ok [1])).2.table = emptyStore.table ∧
       (PutObject { noFail with renameFails := true } emptyStore "b" "k"
          (GoReader.ok [1])).2.objects = emptyStore.objects)) :=
  ⟨⟨rfl, metadata_only_after_commit.1 emptyStore
      [Op.put noFail "b" "k" (GoReader.ok [1, 2]), Op.del "b" "k"] rfl⟩,
   ⟨rfl, metadata_only_after_commit.2 { noFail with renameFails := true }
      emptyStore "b" "k" (GoReader.ok [1]) rfl⟩⟩

/-!
## Claims C6 and C7: failure and delete semantics
-/

/-- **C6.** A `Put` whose input stream fails with an I/O error mid-stream
removes the temporary staging file, fails with an I/O error, promotes no
content to the content-addressed tree, and leaves the metadata index
unchanged. -/
theorem put_midstream_failure (env : PutEnv) (st : Store) (b k : String)
    (bs : List Nat) (hc : env.createFails = false) :
    (PutObject env st b k (GoReader.failAfter bs)).1 = Except.error StoreErr.ioErr ∧
    (PutObject env st b k (GoReader.failAfter bs)).2.objects = st.objects ∧
    (PutObject env st b k (GoReader.failAfter bs)).2.table = st.table ∧
    fsLookup (PutObject env st b k (GoReader.failAfter bs)).2.tmp
      (uuidString st.uuidCtr) = none ∧
    ∀ n, n ≠ uuidString st.uuidCtr →
      fsLookup (PutObject env st b k (GoReader.failAfter bs)).2.tmp n =
        fsLookup st.tmp n := by
  obtain ⟨c, cl, mk, rn, db⟩ := env
  cases c with
  | true => simp at hc
  | false =>
    refine ⟨rfl, rfl, rfl, ?_, ?_⟩
    · show fsLookup (fsRemove (fsWrite (fsWrite st.tmp (uuidString st.uuidCtr) [])
        (uuidString st.uuidCtr) bs) (uuidString st.uuidCtr)) (uuidString st.uuidCtr) = none
      exact fsLookup_fsRemove_self _ _
    · intro n hn
      show fsLookup (fsRemove (fsWrite (fsWrite st.tmp (uuidString st.uuidCtr) [])
        (uuidString st.uuidCtr) bs) (uuidString st.uuidCtr)) n = fsLookup st.tmp n
      rw [fsLookup_fsRemove_ne _ _ _ hn, fsLookup_fsWrite_ne _ _ _ _ hn,
        fsLookup_fsWrite_ne _ _ _ _ hn]

/-- Witness for C6: a stream that dies after one byte. -/
theorem put_midstream_failure_witness :
    noFail.createFails = false ∧
    (PutObject noFail emptyStore "b" "k" (GoReader.failAfter [7])).1 =
      Except.error StoreErr.ioErr ∧
    fsLookup (PutObject noFail emptyStore "b" "k" (GoReader.failAfter [7])).2.tmp
      (uuidString emptyStore.uuidCtr) = none :=
  ⟨rfl, (put_midstream_failure noFail emptyStore "b" "k" [7] rfl).1,
    (put_midstream_failure noFail emptyStore "b" "k" [7] rfl).2.2.2.1⟩

/-- When no row matches the pair, `DeleteObject` reports `ErrNotFound`. -/
theorem deleteObject_fst_of_nil (st : Store) (b k : String)
    (h : st.table.filter (fun r => r.bucket == b && r.key == k) = []) :
    (DeleteObject st b k).1 = Except.error StoreErr.notFound := by
  simp only [DeleteObject]
  rw [h]
  rfl

/-- **C7.** `Delete` fails `NotFound` when no record exists for the pair;
after a successful `Delete`, `Get` on the pair fails `NotFound` and a
second `Delete` also fails `NotFound`; `Delete` removes only the metadata
record — the content tree and staging directory are untouched. -/
theorem delete_semantics :
    (∀ (st : Store) (b k : String), lookupRow st.table b k = none →
        (DeleteObject st b k).1 = Except.error StoreErr.notFound) ∧
    (∀ (st : Store) (b k : String), (DeleteObject st b k).1 = Except.ok () →
        GetObject (DeleteObject st b k).2 b k = Except.error StoreErr.notFound ∧
        (DeleteObject (DeleteObject st b k).2 b k).1 = Except.error StoreErr.notFound ∧
        (DeleteObject st b k).2.objects = st.objects ∧
        (DeleteObject st b k).2.tmp = st.tmp) := by
  constructor
  · intro st b k hnone
    have hfil : st.table.filter (fun r => r.bucket == b && r.key == k) = [] := by
      rw [List.filter_eq_nil_iff]
      intro r hr
      have := List.find?_eq_none.mp hnone r hr
      simpa using this
    exact deleteObject_fst_of_nil st b k hfil
  · intro st b k _
    have htab : (DeleteObject st b k).2.table =
        st.table.filter (fun r => !(r.bucket == b && r.key == k)) := by
      rw [deleteObject_snd]
    refine ⟨?_, ?_, ?_, ?_⟩
    · have hnone : lookupRow (DeleteObject st b k).2.table b k = none := by
        rw [htab]
        exact lookupRow_filter_out st.table b k
      simp [GetObject, hnone]
    · have hfil2 : (DeleteObject st b k).2.table.filter
          (fun r => r.bucket == b && r.key == k) = [] := by
        rw [htab]
        exact filter_not_filter (fun r : ObjectMeta => r.bucket == b && r.key == k) st.table
      exact deleteObject_fst_of_nil _ b k hfil2
    · rw [deleteObject_snd]
    · rw [deleteObject_snd]

/-- A one-row store for exercising `Delete`. -/
def c7store : Store :=
  { tmp := [], objects := [(blobPath "aa", [1])],
    table := [{ bucket := "b", key := "k", hash := "aa", size := 1 }],
    uuidCtr := 0 }

/-- Witness for C7: deleting an absent pair fails `NotFound`; after
deleting the present pair, `Get` fails `NotFound`. -/
theorem delete_semantics_witness :
    (lookupRow c7store.table "x" "y" = none ∧
      (DeleteObject c7store "x" "y").1 = Except.error StoreErr.notFound) ∧
    ((DeleteObject c7store "b" "k").1 = Except.ok () ∧
      GetObject (DeleteObject c7store "b" "k").2 "b" "k" =
        Except.error StoreErr.notFound) :=
  ⟨⟨rfl, delete_semantics.1 c7store "x" "y" rfl⟩,
   ⟨rfl, (delete_semantics.2 c7store "b" "k" rfl).1⟩⟩

/-!
## Claim C5: integrity violation is not distinguished from not-found
-/

/-- A store whose single metadata row references a digest with no blob
file behind it — the invariant was broken out-of-band. -/
def orphanRowStore : Store :=
  { tmp := [], objects := [],
    table := [{ bucket := "b", key := "k",
                hash := "a591a6d40bf420404a011733cfb7b190d62c65bf0bcda32b57b277d9ad9f146e",
                size := 11 }],
    uuidCtr := 0 }

/-- Counterexample to C5 as stated: on a metadata hit whose blob is
missing, `GetObject` returns the very same `ErrNotFound` value it
returns when no metadata record exists at all — no distinct
IntegrityViolation condition is ever reported. -/
theorem get_integrity_not_distinct :
    GetObject orphanRowStore "b" "k" = Except.error StoreErr.notFound ∧
    GetObject { orphanRowStore with table := [] } "b" "k" =
      Except.error StoreErr.notFound :=
  ⟨rfl, rfl⟩

/-- **C5 (amended).** `GetObject` reports `NotFound` in both conditions:
when no metadata record exists for the pair, and equally when a record
exists but the referenced blob is missing or unreadable — the code does
not report a distinct IntegrityViolation. -/
theorem get_conflates_notfound :
    (∀ (st : Store) (b k : String), lookupRow st.table b k = none →
        GetObject st b k = Except.error StoreErr.notFound) ∧
    (∀ (st : Store) (b k : String) (row : ObjectMeta),
        lookupRow st.table b k = some row →
        fsLookup st.objects (blobPath row.hash) = none →
        GetObject st b k = Except.error StoreErr.notFound) := by
  constructor
  · intro st b k hnone
    simp [GetObject, hnone]
  · intro st b k row hrow hblob
    simp [GetObject, hrow, hblob]

/-- Witness for the amended C5, at the orphan-row store. -/
theorem get_conflates_notfound_witness :
    lookupRow orphanRowStore.table "b" "k" =
      some { bucket := "b", key := "k",
             hash := "a591a6d40bf420404a011733cfb7b190d62c65bf0bcda32b57b277d9ad9f146e",
             size := 11 } ∧
    fsLookup orphanRowStore.objects
      (blobPath "a591a6d40bf420404a011733cfb7b190d62c65bf0bcda32b57b277d9ad9f146e") = none ∧
    GetObject orphanRowStore "b" "k" = Except.error StoreErr.notFound :=
  ⟨rfl, rfl, get_conflates_notfound.2 orphanRowStore "b" "k"
      { bucket := "b", key := "k",
        hash := "a591a6d40bf420404a011733cfb7b190d62c65bf0bcda32b57b277d9ad9f146e",
        size := 11 } rfl rfl⟩

/-!
## Claim C9: the HEAD handler's Content-Length header
-/

/-- A store with one live record whose size is 65 bytes. -/
def size65Store : Store :=
  { tmp := [], objects := [(blobPath "ff00", [0])],
    table := [{ bucket := "test", key := "k", hash := "ff00", size := 65 }],
    uuidCtr := 0 }

/-- **C9 (code evaluation at the failing input).** For the size-65 record
the handler answers 200 with the digest as `ETag`, but sets
`Content-Length` from `string(meta.Size)` — Go's code-point conversion —
producing `"A"` (U+0041), not the decimal numeral `"65"`. -/
theorem head_content_length_rune :
    headObjectHandler size65Store "test" "k" =
      { status := 200, contentLength := some "A", etag := some "ff00" } ∧
    goStringOfInt 65 = "A" ∧
    toString (65 : Nat) = "65" ∧
    ("A" : String) ≠ "65" := by
  refine ⟨rfl, rfl, rfl, by decide⟩

/-!
## Claim C10: the empty string disables the bucket filter
-/

/-- A table holding one row in the bucket literally named `""` and one in
the bucket `"a"`. -/
def emptyNameStore : Store :=
  { tmp := [], objects := [],
    table := [{ bucket := "a", key := "k1", hash := "h1", size := 2 },
              { bucket := "", key := "k0", hash := "h0", size := 1 }],
    uuidCtr := 0 }

/-- **C10.** `ListObjects` treats `""` as "no filter": the empty-string
query returns every bucket's records in `(bucket, key)` order — for the
concrete store it returns the `""`-bucket row *and* the `"a"`-bucket row
— while every non-empty argument selects exactly its bucket, so a bucket
literally named `""` can never be selected by the filter. -/
theorem list_empty_string_no_filter :
    (∀ st : Store, ListObjects st "" = sortObjs st.table) ∧
    (∀ (st : Store) (b : String), b ≠ "" →
        ListObjects st b = sortObjs (st.table.filter (fun r => r.bucket == b))) ∧
    ListObjects emptyNameStore "" =
      [{ bucket := "", key := "k0", hash := "h0", size := 1 },
       { bucket := "a", key := "k1", hash := "h1", size := 2 }] := by
  refine ⟨?_, ?_, ?_⟩
  · intro st
    simp [ListObjects]
  · intro st b hb
    simp [ListObjects, hb]
  · decide

/-- Witness for C10: the non-empty filter `"a"` selects its bucket. -/
theorem list_empty_string_no_filter_witness :
    ("a" : String) ≠ "" ∧
    ListObjects emptyNameStore "a" =
      sortObjs (emptyNameStore.table.filter (fun r => r.bucket == "a")) :=
  ⟨by decide, list_empty_string_no_filter.2.1 emptyNameStore "a" (by decide)⟩
